import Mathlib

/-
  Verification development for the dir-snap repository (src/dirsnap/logic.py).

  Python strings are modelled as `List Char`; Python `str` helpers (strip,
  splitlines, find, startswith) are embedded below restricted to ASCII
  whitespace and the line separators actually produced by this program
  (`\n`, `\r\n`, `\r`); Python additionally treats some rare unicode
  whitespace and separators the same way, which no code path here depends on.
  Python machine-independent ints are Nat/Int.  The filesystem is abstracted:
  `mkdir`/`touch` record created (path, is_directory) entries and are
  idempotent; OS-level failures are injected through explicit oracles so that
  the exception-handling structure of the source can be modelled exactly.
-/

namespace DirSnap

/-- Python string model: a list of unicode code points. -/
abbrev PyStr := List Char

/-- Coerce a Lean string literal into the Python string model. -/
def pyStr (s : String) : PyStr := s.toList

/-- ASCII whitespace, the characters Python's `str.strip()` / `str.isspace()`
    treat as space (restricted to ASCII, see header comment). -/
def isPySpace (c : Char) : Bool :=
  c == ' ' || c == '\t' || c == '\n' || c == '\r' || c == '\x0b' || c == '\x0c'

/-- Python `str.lstrip()` (no argument: strip leading whitespace). -/
def pyLstripWs (l : PyStr) : PyStr := l.dropWhile isPySpace

/-- Strip trailing characters satisfying `p` (helper for `rstrip`/`strip`). -/
def stripEnd (p : Char → Bool) (l : List Char) : List Char :=
  (l.reverse.dropWhile p).reverse

/-- Python `str.rstrip()` (no argument: strip trailing whitespace). -/
def pyRstripWs (l : PyStr) : PyStr := stripEnd isPySpace l

/-- Python `str.strip()` (no argument: strip whitespace at both ends). -/
def pyStrip (l : PyStr) : PyStr := stripEnd isPySpace (l.dropWhile isPySpace)

/-- Python `str.strip(chars)` for a character class `p`: both ends. -/
def pyStripChars (p : Char → Bool) (l : PyStr) : PyStr :=
  stripEnd p (l.dropWhile p)

/-- Python `str.isspace()`: nonempty and all whitespace. -/
def pyIsSpace (l : PyStr) : Bool := !l.isEmpty && l.all isPySpace

/-- Python `str.splitlines()` on `\n`, `\r\n` and `\r`; a terminal line break
    produces no trailing empty line, and `"".splitlines() == []`. -/
def splitLinesGo (cur : List Char) : List Char → List (List Char)
  | [] => [cur.reverse]
  | '\r' :: '\n' :: rest =>
      cur.reverse :: (match rest with
        | [] => []
        | r => splitLinesGo [] r)
  | '\r' :: rest =>
      cur.reverse :: (match rest with
        | [] => []
        | r => splitLinesGo [] r)
  | '\n' :: rest =>
      cur.reverse :: (match rest with
        | [] => []
        | r => splitLinesGo [] r)
  | c :: rest => splitLinesGo (c :: cur) rest

/-- Python `str.splitlines()`. -/
def pySplitlines : PyStr → List PyStr
  | [] => []
  | l => splitLinesGo [] l

/-- Python `str.find(sub)` restricted to the successful case: the first index
    at which `pat` occurs in `hay`, or `none` (Python returns -1; every call
    site in the source is guarded by a `startswith` check that guarantees
    presence). -/
def pyFind (hay pat : List Char) : Option Nat :=
  if pat.isPrefixOf hay then some 0
  else match hay with
    | [] => none
    | _ :: t => (pyFind t pat).map (· + 1)

/-- Count of leading `' '` characters (`len(s) - len(s.lstrip(' '))`). -/
def countLeadingSpaces (l : PyStr) : Nat := (l.takeWhile (· == ' ')).length

/-- Count of leading `'\t'` characters (`len(s) - len(s.lstrip('\t'))`). -/
def countLeadingTabs (l : PyStr) : Nat := (l.takeWhile (· == '\t')).length

-- ============================================================
-- Tree format constants (logic.py lines 19-26)
-- ============================================================

def TREE_BRANCH : PyStr := pyStr "├── "
def TREE_LAST_BRANCH : PyStr := pyStr "└── "
def TREE_PIPE : PyStr := pyStr "│   "
def TREE_SPACE : PyStr := pyStr "    "

-- ============================================================
-- Emoji tables (logic.py lines 29-61)
-- ============================================================

def FOLDER_EMOJI : PyStr := pyStr "📁"
def DEFAULT_FILE_EMOJI : PyStr := pyStr "📄"

/-- The values of `FILE_TYPE_EMOJIS`, in the source's dict order.  Only the
    values are consulted by the parsers (the keys drive rendering, which is
    out of scope for the claims). -/
def FILE_TYPE_EMOJI_VALUES : List PyStr :=
  [pyStr "🐍", pyStr "📜", pyStr "🌐", pyStr "🎨", pyStr "☕", pyStr "🇨",
   pyStr "🇨", pyStr "♯", pyStr "🐹", pyStr "💎", pyStr "🐘", pyStr "🐦",
   pyStr "💜", pyStr "🦀", pyStr "💲", pyStr "🦇", pyStr " PowerShell",
   pyStr "⚙️", pyStr "📰", pyStr "🧾", pyStr "🧾", pyStr "⚙️",
   pyStr "📝", pyStr "📝", pyStr "🎓",
   pyStr "📄", pyStr "📄", pyStr "🪵", pyStr "📊",
   pyStr "💼", pyStr "💼", pyStr "💼", pyStr "📕", pyStr "📽️",
   pyStr "📽️", pyStr "📈", pyStr "📈",
   pyStr "🖼️", pyStr "🖼️", pyStr "🖼️", pyStr "🖼️", pyStr "🖼️",
   pyStr "🖼️", pyStr "🖼️", pyStr "🎨", pyStr "🖼️", pyStr "🖼️",
   pyStr "🎵", pyStr "🎵", pyStr "🎵", pyStr "🎵", pyStr "🎵", pyStr "🎵",
   pyStr "🎬", pyStr "🎬", pyStr "🎬", pyStr "🎬", pyStr "🎬", pyStr "🎬",
   pyStr "🎬",
   pyStr "📦", pyStr "📦", pyStr "📦", pyStr "📦", pyStr "📦", pyStr "📦",
   pyStr "💾", pyStr "💾", pyStr "💾", pyStr "💾",
   pyStr "⚙️", pyStr "⚙️", pyStr "⚙️", pyStr "🔒", pyStr "🔒",
   pyStr "🚀", pyStr "🚀", pyStr "📀", pyStr "📀", pyStr "⚙️",
   pyStr "🚫", pyStr "🐳"]

/-- Models `list(set([FOLDER_EMOJI, DEFAULT_FILE_EMOJI] + FILE_TYPE_EMOJIS.values()))`.
    The Python set deduplicates and has unspecified order; since the scan
    below stops at the first match and no distinct value of this table is a
    proper prefix of another, neither the duplicates nor the order affect its
    result, so the list is kept in source order. -/
def parseKnownEmojis : List PyStr :=
  FOLDER_EMOJI :: DEFAULT_FILE_EMOJI :: FILE_TYPE_EMOJI_VALUES

/-- The emoji detection block shared by `_extract_final_components` and
    `_extract_line_components`: scan the known emojis, and for the first one
    that prefixes `text.lstrip()` return (emoji, remaining content after the
    emoji and one optional following space, index just past the consumed
    part in `text`). -/
def emojiScanGo (text : List Char) : List PyStr → Option (PyStr × PyStr × Nat)
  | [] => none
  | e :: es =>
      if e.isPrefixOf (pyLstripWs text) then
        let start := (pyFind text e).getD 0
        let temp := text.drop (start + e.length)
        let sp := if temp.head? = some ' ' then 1 else 0
        some (e, temp.drop sp, start + e.length + sp)
      else emojiScanGo text es

def emojiScan (text : List Char) : Option (PyStr × PyStr × Nat) :=
  emojiScanGo text parseKnownEmojis

-- ============================================================
-- `_extract_final_components` (logic.py lines 73-119, used by tree parser)
-- ============================================================

/-- Models `_extract_final_components`: emoji, clean name and directory flag of the
    part of a line after all structural markers. -/
def extractFinalComponents (rem : PyStr) : PyStr × PyStr × Bool :=
  let (emoji, content_after_emoji) :=
    match emojiScan rem with
    | some (e, after, _) => (e, after)
    | none => (([] : PyStr), rem)
  let item_name_part := content_after_emoji
  let is_directory := item_name_part.getLast? = some '/'
  let clean_name := pyStrip (stripEnd (· == '/') item_name_part)
  (emoji, clean_name, is_directory)

-- ============================================================
-- `LineComponents` and `_extract_line_components` (logic.py lines 122-212)
-- ============================================================

structure LineComponents where
  raw_indent_width : Nat
  effective_indent_width : Nat
  pref_chars : PyStr
  emoji : PyStr
  clean_name : PyStr
  is_directory : Bool
  is_empty_or_comment : Bool
deriving Repr, DecidableEq

/-- Models `_extract_line_components` (used by the indent and generic parsers). -/
def extractLineComponents (line_text : PyStr) : LineComponents :=
  let line_rstrip := pyRstripWs line_text
  if (pyStrip line_rstrip).isEmpty || (pyStrip line_rstrip).head? = some '#' then
    { raw_indent_width := countLeadingSpaces line_text
      effective_indent_width := 0, pref_chars := [], emoji := []
      clean_name := [], is_directory := false, is_empty_or_comment := true }
  else
    let raw := countLeadingSpaces line_rstrip
    let content_after_spaces := line_rstrip.drop raw
    let (pl, detected) :=
      if TREE_BRANCH.isPrefixOf content_after_spaces then
        (TREE_BRANCH.length, TREE_BRANCH)
      else if TREE_LAST_BRANCH.isPrefixOf content_after_spaces then
        (TREE_LAST_BRANCH.length, TREE_LAST_BRANCH)
      else if (pyStr "- ").isPrefixOf content_after_spaces then (2, pyStr "- ")
      else if (pyStr "* ").isPrefixOf content_after_spaces then (2, pyStr "* ")
      else (0, ([] : PyStr))
    let content_after_pref := content_after_spaces.drop pl
    let scan := emojiScan content_after_pref
    let (emoji, content_after_emoji) :=
      match scan with
      | some (e, after, _) => (e, after)
      | none => (([] : PyStr), content_after_pref)
    let effective :=
      match scan with
      | some (_, _, endIdx) => raw + endIdx
      | none =>
          raw + pl + (content_after_pref.length - (pyLstripWs content_after_pref).length)
    let item_name_part := content_after_emoji
    let is_directory := item_name_part.getLast? = some '/'
    let clean_name := pyStrip (stripEnd (· == '/') item_name_part)
    { raw_indent_width := raw
      effective_indent_width := effective
      pref_chars := detected
      emoji := emoji
      clean_name := clean_name
      is_directory := is_directory
      is_empty_or_comment := false }

-- ============================================================
-- Parsed items
-- ============================================================

/-- A parsed map item `(level, clean_name, is_directory)`. -/
abbrev Item := Nat × PyStr × Bool

-- ============================================================
-- `_parse_indent_based` (logic.py lines 647-711)
-- ============================================================

/-- The two argument shapes `parse_map` uses for `_parse_indent_based`:
    `spaces_per_level=n` or `use_tabs=True`. -/
inductive IndentCfg where
  | spaces (n : Nat)
  | tabs
deriving Repr, DecidableEq

/-- The argument validation at the top of `_parse_indent_based`
    (`spaces_per_level is not None and spaces_per_level > 0) or use_tabs`. -/
def cfgValid : IndentCfg → Bool
  | .spaces n => 0 < n
  | .tabs => true

/-- Models `indent_unit = 1 if use_tabs else spaces_per_level`. -/
def indentUnit : IndentCfg → Nat
  | .spaces n => n
  | .tabs => 1

/-- The leading-character count `_parse_indent_based` compares against the
    unit: leading tabs of the raw line in tab mode, else the component's
    `raw_indent_width` (leading spaces). -/
def indentLeading (cfg : IndentCfg) (line : PyStr) : Nat :=
  match cfg with
  | .tabs => countLeadingTabs line
  | .spaces _ => (extractLineComponents line).raw_indent_width

/-- The per-line body of `_parse_indent_based`'s loop, `none` meaning the
    line is skipped (`continue`).  The loop carries no state between lines
    besides the excluded-line check, handled by the caller. -/
def indentLine (cfg : IndentCfg) (line : PyStr) : Option Item :=
  let comps := extractLineComponents line
  if comps.is_empty_or_comment then none
  else
    let leading := indentLeading cfg line
    let unit := indentUnit cfg
    let lvl? : Option Nat :=
      if leading = 0 then some 0
      else if 0 < leading ∧ 0 < unit ∧ leading % unit = 0 then
        some (leading / unit)
      else none
    match lvl? with
    | none => none
    | some lvl =>
        if comps.clean_name.isEmpty then none
        else some (lvl, comps.clean_name, comps.is_directory)

/-- The loop of `_parse_indent_based` over 1-indexed lines. -/
def goIndent (cfg : IndentCfg) (excl : List Nat) : Nat → List PyStr → List Item
  | _, [] => []
  | n, line :: rest =>
      if n ∈ excl then goIndent cfg excl (n + 1) rest
      else
        match indentLine cfg line with
        | none => goIndent cfg excl (n + 1) rest
        | some it => it :: goIndent cfg excl (n + 1) rest

/-- Models `_parse_indent_based`.  The trailing first-item check in the source only
    prints a warning and keeps the list. -/
def parseIndentBased (cfg : IndentCfg) (map_text : PyStr) (excl : List Nat) :
    Option (List Item) :=
  if cfgValid cfg then some (goIndent cfg excl 1 (pySplitlines map_text))
  else none

-- ============================================================
-- `_parse_tree_format` (logic.py lines 713-792)
-- ============================================================

/-- The level-counting loop: consume complete 4-character `TREE_PIPE` or
    `TREE_SPACE` segments from the start of the rstripped line. -/
def treeLevel : List Char → Nat × List Char
  | c1 :: c2 :: c3 :: c4 :: rest =>
      if [c1, c2, c3, c4] = TREE_PIPE ∨ [c1, c2, c3, c4] = TREE_SPACE then
        let (n, r) := treeLevel rest
        (n + 1, r)
      else (0, c1 :: c2 :: c3 :: c4 :: rest)
  | l => (0, l)

/-- The loop of `_parse_tree_format` over 1-indexed lines. -/
def goTree (excl : List Nat) : Nat → List PyStr → List Item
  | _, [] => []
  | n, line :: rest =>
      let olr := pyRstripWs line
      if n ∈ excl then goTree excl (n + 1) rest
      else
        let lc := pyStrip olr
        if lc.isEmpty || lc.head? = some '#' then goTree excl (n + 1) rest
        else
          let (lvl, after) := treeLevel olr
          let step : Option PyStr :=
            if TREE_BRANCH.isPrefixOf after then some (after.drop TREE_BRANCH.length)
            else if TREE_LAST_BRANCH.isPrefixOf after then
              some (after.drop TREE_LAST_BRANCH.length)
            else if lvl = 0 then some after
            else none
          match step with
          | none => goTree excl (n + 1) rest
          | some nameRem =>
              let (_e, nm, isdir) := extractFinalComponents nameRem
              if nm.isEmpty then goTree excl (n + 1) rest
              else (lvl, nm, isdir) :: goTree excl (n + 1) rest

/-- Models `_parse_tree_format` (always returns a list; the trailing first-item
    check only warns). -/
def parseTreeFormat (map_text : PyStr) (excl : List Nat) : List Item :=
  goTree excl 1 (pySplitlines map_text)

-- ============================================================
-- `_parse_generic_indent` (logic.py lines 794-872)
-- ============================================================

/-- State of the generic parser: the indent-width-to-level memo
    (`indent_map`, first-match association list models dict overwrite),
    the indent stack (`level_stack`, head is the Python list's last element)
    and `last_processed_level` (Python initialises it to `-1`). -/
structure GState where
  imap : List (Nat × Nat)
  stack : List Nat
  last : Int
deriving Repr, DecidableEq

def gInit : GState := { imap := [(0, 0)], stack := [0], last := -1 }

/-- Models `level_stack[-1]` (the stack always keeps its initial 0 at the bottom). -/
def gTop (s : List Nat) : Nat := s.headD 0

/-- Models `while level_stack[-1] > indent_width: level_stack.pop()`. -/
def gPop (w : Nat) : List Nat → List Nat
  | [] => []
  | t :: r => if w < t then gPop w r else t :: r

/-- Level resolution for one line of `_parse_generic_indent`: the updated
    state together with the assigned level, `none` when the line is skipped
    (state changes made before the skip persist, as in the source). -/
def gLevel (st : GState) (w : Nat) : GState × Option Nat :=
  if gTop st.stack < w then
    let cur := st.stack.length
    ({ st with stack := w :: st.stack, imap := (w, cur) :: st.imap }, some cur)
  else
    match st.imap.lookup w with
    | some cur =>
        let stack' := gPop w st.stack
        if gTop stack' = w then ({ st with stack := stack' }, some cur)
        else ({ st with stack := stack' }, none)
    | none => (st, none)

/-- The strict level-progression check (logic.py lines 845-848), evaluated
    on the state after level resolution (`indent_map` already contains the
    current width) with `last_processed_level` unchanged. -/
def gStrict (st : GState) (w cur : Nat) : Bool :=
  ((cur : Int) == st.last) || ((cur : Int) == st.last + 1) ||
    ((st.imap.lookup w).isSome && ((cur : Int) ≤ st.last))

/-- The loop of `_parse_generic_indent` over 1-indexed lines. -/
def goGeneric (excl : List Nat) : Nat → GState → List PyStr → List Item
  | _, _, [] => []
  | n, st, line :: rest =>
      if n ∈ excl then goGeneric excl (n + 1) st rest
      else
        let comps := extractLineComponents line
        if comps.is_empty_or_comment then goGeneric excl (n + 1) st rest
        else
          let w := comps.raw_indent_width
          match gLevel st w with
          | (st', none) => goGeneric excl (n + 1) st' rest
          | (st', some cur) =>
              if gStrict st' w cur then
                if comps.clean_name.isEmpty then goGeneric excl (n + 1) st' rest
                else
                  (cur, comps.clean_name, comps.is_directory) ::
                    goGeneric excl (n + 1) { st' with last := (cur : Int) } rest
              else
                let st'' :=
                  if w = gTop st'.stack ∧ cur = st'.stack.length - 1 then
                    { st' with stack := st'.stack.tail }
                  else st'
                goGeneric excl (n + 1) st'' rest

/-- Models `_parse_generic_indent` (always returns a list; the trailing first-item
    check only warns). -/
def parseGenericIndent (map_text : PyStr) (excl : List Nat) : List Item :=
  goGeneric excl 1 gInit (pySplitlines map_text)

-- ============================================================
-- `_detect_format` (logic.py lines 599-644)
-- ============================================================

/-- The sampled lines of `_detect_format`: the first 25 non-blank lines of
    the stripped text. -/
def sampledLines (map_text : PyStr) : List PyStr :=
  ((pySplitlines (pyStrip map_text)).filter (fun l => !(pyStrip l).isEmpty)).take 25

/-- Models `TREE_PREFIX_RE.match(line)`: the regex
    `^\s*([││]|├──|└──)` — leading whitespace, then the pipe character (the
    character class holds it twice) or a branch glyph. -/
def treeStartMatch (l : PyStr) : Bool :=
  let t := l.dropWhile isPySpace
  (pyStr "│").isPrefixOf t || (pyStr "├──").isPrefixOf t ||
    (pyStr "└──").isPrefixOf t

/-- Models `_detect_format` (the `"Unknown"` value named by its docstring is never
    returned by its body). -/
def detectFormat (map_text : PyStr) : String :=
  let non_empty := sampledLines map_text
  if non_empty.isEmpty then "Generic"
  else if non_empty.any treeStartMatch then "Tree"
  -- `line.startswith('\t')` for the single character: first char is a tab
  else if (non_empty.filter (fun l => !l.isEmpty && !pyIsSpace l)).any
      (fun l => l.head? == some '\t') then "Tabs"
  else
    let space_indented := non_empty.filter
      (fun l => !l.isEmpty && !pyIsSpace l && l.head? == some ' ')
    let leading_spaces := space_indented.map countLeadingSpaces
    -- sorted(list(set(sp for sp in leading_spaces if sp > 0)))
    let space_indents :=
      ((leading_spaces.filter (fun sp => 0 < sp)).dedup).insertionSort (· ≤ ·)
    if space_indents.isEmpty then "Generic"
    else if space_indents.all (fun s => s % 4 == 0) then "Spaces (4)"
    else if space_indents.all (fun s => s % 2 == 0) then "Spaces (2)"
    else "Generic"

-- ============================================================
-- `parse_map` (logic.py lines 550-597)
-- ============================================================

/-- Models `parse_map`: format dispatch.  The parser bodies are total functions of
    their text input, so the `try/except` around the parser call is dead
    code and the dispatch is modelled directly. -/
def parse_map (map_text : PyStr) (format_hint : String) (excluded_lines : List Nat) :
    Option (List Item) :=
  let actual :=
    if format_hint = "Auto-Detect" then
      let d := detectFormat map_text
      if d = "Unknown" then "Generic" else d
    else format_hint
  if actual = "Spaces (2)" then parseIndentBased (.spaces 2) map_text excluded_lines
  else if actual = "Spaces (4)" then parseIndentBased (.spaces 4) map_text excluded_lines
  else if actual = "Tabs" then parseIndentBased .tabs map_text excluded_lines
  else if actual = "Tree" then some (parseTreeFormat map_text excluded_lines)
  else if actual = "Generic" then some (parseGenericIndent map_text excluded_lines)
  else none

-- ============================================================
-- Exception model for the scaffold entry points
-- ============================================================

/-- The Python exceptions relevant to the scaffold call chain.
    `nameError m` models `NameError: name m is not defined`. -/
inductive PyExn where
  | valueError
  | osError
  | nameError (missing : String)
deriving Repr, DecidableEq

/-- The modules imported at the top of logic.py (lines 5-9). -/
def logicImports : List String := ["os", "fnmatch", "re", "pathlib", "typing"]

/-- Whether the name `traceback` is bound in the module: it is not imported,
    so every `traceback.print_exc()` in an exception handler raises
    `NameError` instead of printing. -/
def tracebackImported : Bool := logicImports.contains "traceback"

-- ============================================================
-- `create_structure_from_parsed` (logic.py lines 440-545)
-- ============================================================

/-- A filesystem entry created under the base directory: path segments from
    the base, and whether it is a directory. -/
abbrev FsEntry := List PyStr × Bool

/-- Abstract filesystem: the list of existing entries.  Initially only the
    base directory (empty segment list) exists. -/
abbrev Fs := List FsEntry

def fsInit : Fs := [([], true)]

/-- Models `mkdir(exist_ok=True)` / `touch(exist_ok=True)`: idempotent creation. -/
def fsAdd (fs : Fs) (p : List PyStr) (isDir : Bool) : Fs :=
  if fs.any (fun e => e.1 == p) then fs else fs ++ [(p, isDir)]

/-- Name sanitization of `create_structure_from_parsed`
    (logic.py lines 497-501): `re.sub(r'[<>:"/\\|?*]', '_', name)` followed
    by `.strip('. ')`. -/
def illegalFsChar (c : Char) : Bool :=
  c == '<' || c == '>' || c == ':' || c == '"' || c == '/' || c == '\\' ||
    c == '|' || c == '?' || c == '*'

def replaceIllegal (l : PyStr) : PyStr :=
  l.map (fun c => if illegalFsChar c then '_' else c)

def dotSpace (c : Char) : Bool := c == '.' || c == ' '

def sanitizeName (l : PyStr) : PyStr := pyStripChars dotSpace (replaceIllegal l)

/-- The placeholder substituted when sanitization empties a name. -/
def placeholderName (oneBased : Nat) : PyStr :=
  pyStr "_sanitized_empty_name_" ++ (Nat.repr oneBased).toList

/-- The result triple `(message, success, created_root_name)`. -/
abbrev ScaffoldResult := String × Bool × Option PyStr

/-- What an `OSError` raised while creating an item turns into: the handler
    (logic.py lines 528-532) prints, calls `traceback.print_exc()` — which
    raises `NameError` since `traceback` is not imported — and only then
    would return the filesystem-error triple. -/
def osErrorHandler : Except PyExn ScaffoldResult :=
  if tracebackImported then
    Except.ok ("Filesystem error creating item", false, none)
  else Except.error (.nameError "traceback")

/-- The item loop of `create_structure_from_parsed`.  `fsErr i` injects an
    `OSError` at item index `i` (0-based); `stack` is `path_stack` with the
    Python list's last element at the head; `root` is `created_root_name`. -/
def matGo (fsErr : Nat → Option PyExn) :
    Nat → List (List PyStr) → Fs → Option PyStr → List Item →
    Fs × Except PyExn ScaffoldResult
  | _, _, fs, root, [] =>
      (fs, Except.ok ("Structure successfully created", true, root))
  | i, stack, fs, root, (d, nm, isdir) :: rest =>
      let target := d + 1
      let stack' := stack.drop (stack.length - target)
      if stack'.length ≠ target then
        -- raise ValueError(Structure Error ...), caught by `except ValueError`
        (fs, Except.ok ("Error processing structure: inconsistent indentation",
          false, none))
      else
        let parent := stack'.headD []
        let safe0 := sanitizeName nm
        let safe := if safe0.isEmpty then placeholderName (i + 1) else safe0
        let path := parent ++ [safe]
        let root' := if i = 0 then some safe else root
        match fsErr i with
        | some _ => (fs, osErrorHandler)
        | none =>
            if isdir then
              matGo fsErr (i + 1) (path :: stack') (fsAdd fs path true) root' rest
            else
              matGo fsErr (i + 1) stack'
                (fsAdd (fsAdd fs parent true) path false) root' rest

/-- Models `create_structure_from_parsed`.  `baseResolve` is the outcome of
    `Path(base_dir_str).resolve()` / `.is_dir()` — `.error e` when resolution
    itself raises (e.g. `ValueError` for an embedded null byte; these two
    statements sit before the `try` block, so the exception propagates),
    `.ok b` with `b` the `is_dir` answer otherwise. -/
def createStructureFromParsedM (items : List Item)
    (baseResolve : Except PyExn Bool) (fsErr : Nat → Option PyExn) :
    Fs × Except PyExn ScaffoldResult :=
  match baseResolve with
  | .error e => ([], Except.error e)
  | .ok false =>
      ([], Except.ok ("Error: Base directory is not valid or accessible",
        false, none))
  | .ok true =>
      match items with
      | [] => (fsInit, Except.ok ("No parsed items provided to create structure",
          false, none))
      | (d0, _, b0) :: _ =>
          if d0 ≠ 0 then
            -- raise ValueError(Map must start at level 0 ...), caught below
            (fsInit, Except.ok ("Error processing structure: first item not at level 0",
              false, none))
          else if b0 = false then
            (fsInit, Except.ok ("Error processing structure: first item not a directory",
              false, none))
          else matGo fsErr 0 [[]] fsInit none items

-- ============================================================
-- `create_structure_from_map` (logic.py lines 392-438)
-- ============================================================

/-- The error-message selection when `parse_map` returns `None`
    (logic.py lines 408-412). -/
def parseNoneMsg (map_text : PyStr) : String :=
  if !(pyStrip map_text).isEmpty &&
      !((pySplitlines map_text).all
        (fun l => (pyStrip l).head? == some '#' || (pyStrip l).isEmpty)) then
    "Failed to parse map text"
  else "Map input is empty or contains only comments"

/-- The error-message selection when `parse_map` returns an empty list
    (logic.py lines 413-420); `len(excluded_lines)` is the size of the
    Python set, i.e. the number of distinct excluded lines. -/
def parseEmptyMsg (map_text : PyStr) (excl : List Nat) : String :=
  if !(pyStrip map_text).isEmpty && !excl.isEmpty &&
      decide (((pySplitlines map_text).filter
        (fun l => !(pyStrip l).isEmpty)).length ≤ excl.dedup.length) then
    "Parsing resulted in no items (all lines might be excluded or comments)"
  else if !(pyStrip map_text).isEmpty then
    "Parsing resulted in no items (check format and content)"
  else "Map input is empty"

/-- Models `create_structure_from_map`.  `parse_map` is total, so its surrounding
    `try` never fires; if `create_structure_from_parsed` raises, the
    `except Exception` handler (logic.py lines 435-438) first calls
    `traceback.print_exc()`, which raises `NameError` because `traceback`
    is not imported, so that `NameError` propagates to the caller. -/
def createStructureFromMapM (map_text : PyStr) (format_hint : String)
    (excl : List Nat) (baseResolve : Except PyExn Bool)
    (fsErr : Nat → Option PyExn) : Fs × Except PyExn ScaffoldResult :=
  match parse_map map_text format_hint excl with
  | none => ([], Except.ok (parseNoneMsg map_text, false, none))
  | some [] => ([], Except.ok (parseEmptyMsg map_text excl, false, none))
  | some items =>
      match createStructureFromParsedM items baseResolve fsErr with
      | (fs, Except.ok r) => (fs, Except.ok r)
      | (fs, Except.error _) =>
          (fs,
            if tracebackImported then
              Except.ok ("Fatal error calling structure creation", false, none)
            else Except.error (.nameError "traceback"))

/-- The benign environment: the base directory exists and is a directory,
    and no filesystem operation fails. -/
def benignBase : Except PyExn Bool := Except.ok true

def benignFs : Nat → Option PyExn := fun _ => none

/-- The parse-then-materialize pipeline's created entries in the benign
    environment (used by the exclusion-cascade claim). -/
def scaffoldEntries (map_text : PyStr) (format_hint : String) (excl : List Nat) :
    Fs :=
  match parse_map map_text format_hint excl with
  | none => []
  | some items => (createStructureFromParsedM items benignBase benignFs).1

/-- The materializer's result on a parsed list in the benign environment. -/
def matResult (items : List Item) : Except PyExn ScaffoldResult :=
  (createStructureFromParsedM items benignBase benignFs).2

/-- Whether a scaffold outcome is a successful return. -/
def isSuccess : Except PyExn ScaffoldResult → Bool
  | Except.ok (_, true, _) => true
  | _ => false

-- ============================================================
-- Spec-side comparison definitions
-- ============================================================

/-- The space-rule classification as the spec words it ("collect the set of
    distinct positive leading-space counts across sampled lines; if empty,
    classify Generic; if all such counts are evenly divisible by 4, classify
    Indent4; else if all evenly divisible by 2, classify Indent2; otherwise
    classify Generic"), for comparison with `detectFormat`. -/
def specSpaceClassification (map_text : PyStr) : String :=
  let counts := (((sampledLines map_text).map countLeadingSpaces).filter
    (fun c => 0 < c)).dedup
  if counts.isEmpty then "Generic"
  else if counts.all (fun c => c % 4 == 0) then "Spaces (4)"
  else if counts.all (fun c => c % 2 == 0) then "Spaces (2)"
  else "Generic"

/-- Delete from `lines` (numbered from `n`) the lines whose numbers are in
    `excl` (used to state that exclusion behaves as line deletion). -/
def dropExcludedFrom (excl : List Nat) : Nat → List PyStr → List PyStr
  | _, [] => []
  | n, l :: rest =>
      if n ∈ excl then dropExcludedFrom excl (n + 1) rest
      else l :: dropExcludedFrom excl (n + 1) rest

/-- The chain property the generic parser's strict check enforces on its
    output: each emitted level is at most the previous emitted level plus
    one, starting from `last_processed_level`. -/
def emitsFrom (last : Int) : List Item → Prop
  | [] => True
  | (d, _, _) :: rest => (d : Int) ≤ last + 1 ∧ emitsFrom (d : Int) rest

-- ============================================================
-- Theorems
-- ============================================================

theorem goIndent_append (cfg : IndentCfg) (excl : List Nat) :
    ∀ (pre post : List PyStr) (n : Nat),
      goIndent cfg excl n (pre ++ post) =
        goIndent cfg excl n pre ++ goIndent cfg excl (n + pre.length) post := by
  intro pre
  induction pre with
  | nil => intro post n; simp [goIndent]
  | cons a pre ih =>
      intro post n
      have e := ih post (n + 1)
      simp only [List.cons_append, goIndent, List.length_cons, List.append_eq]
        at e ⊢
      rw [show n + (pre.length + 1) = n + 1 + pre.length from by omega]
      by_cases h : n ∈ excl
      · simp only [if_pos h]; exact e
      · simp only [if_neg h]
        cases h2 : indentLine cfg a with
        | none => simp only [h2]; exact e
        | some it => simp only [h2]; rw [e, List.cons_append]

theorem indentLine_skip (cfg : IndentCfg) (line : PyStr)
    (h : indentLeading cfg line % indentUnit cfg ≠ 0) :
    indentLine cfg line = none := by
  unfold indentLine
  by_cases hc : (extractLineComponents line).is_empty_or_comment
  · simp [hc]
  · have h0 : indentLeading cfg line ≠ 0 := by
      intro h0; exact h (by simp [h0])
    have h1 : ¬ (0 < indentLeading cfg line ∧ 0 < indentUnit cfg ∧
        indentLeading cfg line % indentUnit cfg = 0) := by
      rintro ⟨-, -, hmod⟩; exact h hmod
    simp [hc, h0, h1]

/-- Claim C7: under a fixed-width format configuration, a line whose
    leading-indent count is not an exact multiple of the unit contributes
    nothing to the output — parsing of the surrounding lines proceeds exactly
    as if it were reached directly — and `_parse_indent_based` still returns
    a list (never the `None` failure) for every text. -/
theorem C7_malformed_indent_skipped (cfg : IndentCfg) (excl : List Nat)
    (n : Nat) (pre post : List PyStr) (bad : PyStr)
    (hbad : indentLeading cfg bad % indentUnit cfg ≠ 0) :
    goIndent cfg excl n (pre ++ bad :: post) =
      goIndent cfg excl n pre ++ goIndent cfg excl (n + pre.length + 1) post ∧
    ∀ map_text, cfgValid cfg = true →
      parseIndentBased cfg map_text excl =
        some (goIndent cfg excl 1 (pySplitlines map_text)) := by
  constructor
  · rw [goIndent_append]
    congr 1
    simp only [goIndent]
    by_cases h : n + pre.length ∈ excl
    · simp [h]
    · simp [h, indentLine_skip cfg bad hbad]
  · intro t hv; simp [parseIndentBased, hv]

/-- Witness for C7 at the spec's own example: `"   item"` (3 leading spaces)
    between two valid lines under the Spaces (2) configuration. -/
theorem C7_witness :
    indentLeading (IndentCfg.spaces 2) (pyStr "   item") %
        indentUnit (IndentCfg.spaces 2) ≠ 0 ∧
    goIndent (IndentCfg.spaces 2) [] 1
        ([pyStr "root/"] ++ pyStr "   item" :: [pyStr "  ok"]) =
      goIndent (IndentCfg.spaces 2) [] 1 [pyStr "root/"] ++
        goIndent (IndentCfg.spaces 2) [] 3 [pyStr "  ok"] ∧
    parseIndentBased (IndentCfg.spaces 2) (pyStr "root/\n   item\n  ok") [] =
      some (goIndent (IndentCfg.spaces 2) [] 1
        (pySplitlines (pyStr "root/\n   item\n  ok"))) := by
  refine ⟨by decide, ?_, ?_⟩
  · exact (C7_malformed_indent_skipped (.spaces 2) [] 1 [pyStr "root/"]
      [pyStr "  ok"] (pyStr "   item") (by decide)).1
  · exact (C7_malformed_indent_skipped (.spaces 2) [] 1 [pyStr "root/"]
      [pyStr "  ok"] (pyStr "   item") (by decide)).2
      (pyStr "root/\n   item\n  ok") (by decide)

theorem goIndent_no_excl_counter (cfg : IndentCfg) :
    ∀ (lines : List PyStr) (n m : Nat),
      goIndent cfg [] n lines = goIndent cfg [] m lines := by
  intro lines
  induction lines with
  | nil => intro n m; rfl
  | cons a rest ih =>
      intro n m
      simp only [goIndent, List.not_mem_nil, if_false]
      cases indentLine cfg a with
      | none => exact ih (n + 1) (m + 1)
      | some it => rw [ih (n + 1) (m + 1)]

/-- Claim C4 (corrected part): passing an exclusion set to the fixed-width
    parser is the same as deleting exactly the excluded lines from the input
    before parsing — so a pre-expanded exclusion set `{L..L+k}` removes the
    directory line and all its descendant lines from the parse entirely. -/
theorem C4_exclusion_is_line_deletion (cfg : IndentCfg) (excl : List Nat) :
    ∀ (lines : List PyStr) (n : Nat),
      goIndent cfg excl n lines =
        goIndent cfg [] 1 (dropExcludedFrom excl n lines) := by
  intro lines
  induction lines with
  | nil => intro n; rfl
  | cons a rest ih =>
      intro n
      simp only [goIndent, dropExcludedFrom]
      by_cases h : n ∈ excl
      · simp only [if_pos h]; exact ih (n + 1)
      · simp only [if_neg h, goIndent, List.not_mem_nil, if_false]
        cases indentLine cfg a with
        | none =>
            rw [ih (n + 1)]
            exact goIndent_no_excl_counter cfg _ 1 2
        | some it =>
            rw [ih (n + 1)]
            rw [goIndent_no_excl_counter cfg _ 1 2]

/-- Counterexample to claim C4 as stated: in the map
    `root/ | "  keep/" | "  sub/" | "    a.txt"` the directory `sub/` is on
    line 3 and its only descendant on line 4, yet excluding `{3}` is not
    equivalent to excluding `{3, 4}`: with `{3}` the descendant `a.txt` is
    parsed at its original depth and materialized under the sibling
    directory `keep`, while with `{3, 4}` it is not created. -/
theorem C4_counterexample :
    scaffoldEntries (pyStr "root/\n  keep/\n  sub/\n    a.txt") "Spaces (2)" [3] =
      [([], true), ([pyStr "root"], true), ([pyStr "root", pyStr "keep"], true),
       ([pyStr "root", pyStr "keep", pyStr "a.txt"], false)] ∧
    scaffoldEntries (pyStr "root/\n  keep/\n  sub/\n    a.txt") "Spaces (2)" [3, 4] =
      [([], true), ([pyStr "root"], true), ([pyStr "root", pyStr "keep"], true)] ∧
    ((scaffoldEntries (pyStr "root/\n  keep/\n  sub/\n    a.txt") "Spaces (2)" [3]).any
      (fun e => e.1.getLast? == some (pyStr "a.txt"))) = true ∧
    ((scaffoldEntries (pyStr "root/\n  keep/\n  sub/\n    a.txt") "Spaces (2)" [3, 4]).any
      (fun e => e.1.getLast? == some (pyStr "a.txt"))) = false := by
  refine ⟨by decide, by decide, by decide, by decide⟩

/-- Claim C10: any format hint outside the six recognized tokens makes
    `parse_map` return `None`, for every map text and exclusion set. -/
theorem C10_unknown_hint_returns_none (map_text : PyStr) (excl : List Nat)
    (hint : String)
    (h : hint ∉ ["Spaces (2)", "Spaces (4)", "Tabs", "Tree", "Generic",
      "Auto-Detect"]) :
    parse_map map_text hint excl = none := by
  simp only [List.mem_cons, List.not_mem_nil, or_false, not_or] at h
  obtain ⟨h1, h2, h3, h4, h5, h6⟩ := h
  simp [parse_map, h1, h2, h3, h4, h5, h6]

/-- Witness for C10 at the documented render-format token
    `"Standard Indent"`, which is not usable as a parse hint. -/
theorem C10_witness : parse_map (pyStr "a/") "Standard Indent" [] = none :=
  C10_unknown_hint_returns_none (pyStr "a/") [] "Standard Indent" (by decide)

/-- Claim C6: parsing the four-line worked example with format hint
    Spaces (2) and no exclusions yields exactly the expected item list. -/
theorem C6_worked_example :
    parse_map (pyStr "proj/\n  README.md\n  src/\n    main.py") "Spaces (2)" [] =
      some [(0, pyStr "proj", true), (1, pyStr "README.md", false),
            (1, pyStr "src", true), (2, pyStr "main.py", false)] := by
  decide

/-- Counterexample to claim C1 as stated: under hint Spaces (2) the line
    `"    b"` after `"a/"` computes depth 2, which exceeds the previously
    emitted depth 0 plus 1, yet the line is emitted rather than skipped (the
    strict level check is commented out in `_parse_indent_based`). -/
theorem C1_counterexample :
    parse_map (pyStr "a/\n    b") "Spaces (2)" [] =
      some [(0, pyStr "a", true), (2, pyStr "b", false)] ∧ ¬ (2 ≤ 0 + 1) := by
  exact ⟨by decide, by decide⟩

/-- Counterexample to claim C2 as stated: `parse_map` returns a non-empty
    list whose first item is not a directory (the first-item check in the
    parsers only prints a warning). -/
theorem C2_counterexample :
    parse_map (pyStr "x") "Spaces (2)" [] = some [(0, pyStr "x", false)] ∧
    ((0, pyStr "x", false) : Item).2.2 ≠ true := by
  exact ⟨by decide, by decide⟩

/-- Claim C3 (the code bug, evaluated): with a base-directory string whose
    resolution raises (e.g. an embedded null byte), `create_structure_from_map`
    does not return its documented `(message, success, root_name)` tuple —
    the `except` handler's `traceback.print_exc()` raises
    `NameError: name 'traceback' is not defined`, which propagates. -/
theorem C3_traceback_nameerror_escapes :
    (createStructureFromMapM (pyStr "root/") "Spaces (2)" []
      (Except.error PyExn.valueError) benignFs).2 =
    Except.error (PyExn.nameError "traceback") := by
  rfl

theorem gLevel_last (st : GState) (w : Nat) : (gLevel st w).1.last = st.last := by
  unfold gLevel
  by_cases h : gTop st.stack < w
  · simp [h]
  · simp only [if_neg h]
    cases st.imap.lookup w with
    | none => rfl
    | some cur =>
        by_cases h2 : gTop (gPop w st.stack) = w <;> simp [h2]

theorem gStrict_le {st : GState} {w cur : Nat} (h : gStrict st w cur = true) :
    (cur : Int) ≤ st.last + 1 := by
  unfold gStrict at h
  simp only [Bool.or_eq_true, Bool.and_eq_true, beq_iff_eq, decide_eq_true_eq]
    at h
  rcases h with (h | h) | ⟨-, h⟩ <;> omega

theorem goGeneric_emitsFrom (excl : List Nat) :
    ∀ (lines : List PyStr) (n : Nat) (st : GState),
      emitsFrom st.last (goGeneric excl n st lines) := by
  intro lines
  induction lines with
  | nil => intro n st; exact trivial
  | cons line rest ih =>
      intro n st
      simp only [goGeneric]
      by_cases h1 : n ∈ excl
      · simpa [h1] using ih (n + 1) st
      · simp only [if_neg h1]
        by_cases h2 : (extractLineComponents line).is_empty_or_comment
        · simpa [h2] using ih (n + 1) st
        · simp only [if_neg h2]
          rcases hgl : gLevel st (extractLineComponents line).raw_indent_width
            with ⟨st', cur?⟩
          have hlast : st'.last = st.last := by
            have := gLevel_last st (extractLineComponents line).raw_indent_width
            rw [hgl] at this; exact this
          cases cur? with
          | none => simpa using hlast ▸ ih (n + 1) st'
          | some cur =>
              simp only []
              by_cases h3 : gStrict st' (extractLineComponents line).raw_indent_width cur
              · simp only [if_pos h3]
                by_cases h4 : (extractLineComponents line).clean_name.isEmpty
                · simpa [h4] using hlast ▸ ih (n + 1) st'
                · simp only [if_neg h4]
                  refine ⟨?_, ?_⟩
                  · rw [← hlast]; exact gStrict_le h3
                  · exact ih (n + 1) { st' with last := (cur : Int) }
              · simp only [if_neg h3]
                set st'' := if (extractLineComponents line).raw_indent_width =
                    gTop st'.stack ∧ cur = st'.stack.length - 1 then
                    { st' with stack := st'.stack.tail } else st' with hst''
                have hlast'' : st''.last = st.last := by
                  rw [hst'']
                  by_cases h5 : (extractLineComponents line).raw_indent_width =
                      gTop st'.stack ∧ cur = st'.stack.length - 1
                  · simp [h5, hlast]
                  · simp [h5, hlast]
                simpa using hlast'' ▸ ih (n + 1) st''

theorem emitsFrom_chain :
    ∀ (l : List Item) (z : Int), emitsFrom z l →
      List.Chain' (fun a b : Item => b.1 ≤ a.1 + 1) l := by
  intro l
  induction l with
  | nil => intro z _; exact List.chain'_nil
  | cons a rest ih =>
      intro z h
      obtain ⟨d, nm, dir⟩ := a
      obtain ⟨-, h2⟩ := h
      cases rest with
      | nil => exact List.chain'_singleton _
      | cons b r =>
          obtain ⟨db, nmb, dirb⟩ := b
          rw [List.chain'_cons]
          have hb := h2.1
          exact ⟨by exact_mod_cast hb, ih _ h2⟩

/-- Claim C1 (corrected): depth monotonicity (each item's depth at most the
    previous item's depth plus one, with jumping lines skipped) holds for
    the Generic parser, whose strict level-progression check is active; the
    fixed-width and tree parsers have that check commented out and emit
    depth jumps (see the counterexample). -/
theorem C1_generic_depth_monotone (map_text : PyStr) (excl : List Nat)
    (items : List Item) (h : parse_map map_text "Generic" excl = some items) :
    List.Chain' (fun a b : Item => b.1 ≤ a.1 + 1) items := by
  have e : parse_map map_text "Generic" excl =
      some (parseGenericIndent map_text excl) := rfl
  rw [e] at h
  obtain rfl : parseGenericIndent map_text excl = items := Option.some_inj.mp h
  exact emitsFrom_chain _ (gInit.last) (goGeneric_emitsFrom excl _ 1 gInit)

/-- Witness for C1 (corrected) on a small two-level Generic map. -/
theorem C1_witness :
    List.Chain' (fun a b : Item => b.1 ≤ a.1 + 1)
      [(0, pyStr "a", true), (1, pyStr "b", false)] :=
  C1_generic_depth_monotone (pyStr "a/\n  b") []
    [(0, pyStr "a", true), (1, pyStr "b", false)] rfl

/-- Claim C2 (corrected): the first-item invariant is not guaranteed by
    `parse_map` (which only warns, see the counterexample); it is enforced by
    the materializer, which fails with success `false` and no root name on
    any non-empty list whose first item is not a depth-0 directory. -/
theorem C2_first_item_enforced_at_materialize (d : Nat) (nm : PyStr) (b : Bool)
    (rest : List Item) (h : d ≠ 0 ∨ b = false) :
    ∃ msg, matResult ((d, nm, b) :: rest) = Except.ok (msg, false, none) := by
  rcases h with hd | hb
  · exact ⟨"Error processing structure: first item not at level 0",
      by simp [matResult, createStructureFromParsedM, benignBase, hd]⟩
  · by_cases hd : d = 0
    · subst hd
      exact ⟨"Error processing structure: first item not a directory",
        by simp [matResult, createStructureFromParsedM, benignBase, hb]⟩
    · exact ⟨"Error processing structure: first item not at level 0",
        by simp [matResult, createStructureFromParsedM, benignBase, hd]⟩

/-- Witness for C2 (corrected): a first item at depth 1 is rejected. -/
theorem C2_witness :
    (1 ≠ 0 ∨ true = false) ∧
    ∃ msg, matResult [(1, pyStr "x", true)] = Except.ok (msg, false, none) :=
  ⟨Or.inl (by decide),
    C2_first_item_enforced_at_materialize 1 (pyStr "x") true [] (Or.inl (by decide))⟩

theorem matGo_shape :
    ∀ (rest : List Item) (i : Nat) (stack : List (List PyStr)) (fs : Fs)
      (root : Option PyStr),
      (∃ m r0, (matGo benignFs i stack fs root rest).2 = Except.ok (m, true, r0)) ∨
      (∃ m, (matGo benignFs i stack fs root rest).2 = Except.ok (m, false, none)) := by
  intro rest
  induction rest with
  | nil => intro i stack fs root; left; exact ⟨_, _, rfl⟩
  | cons a rest ih =>
      intro i stack fs root
      obtain ⟨d, nm, dir⟩ := a
      simp only [matGo, benignFs]
      by_cases hj : (stack.drop (stack.length - (d + 1))).length ≠ d + 1
      · right; simp only [if_pos hj]; exact ⟨_, rfl⟩
      · simp only [if_neg hj]
        cases dir with
        | false => simpa using ih (i + 1) _ _ _
        | true => simpa using ih (i + 1) _ _ _

theorem matGo_spec :
    ∀ (rest : List Item) (prev : Item) (i : Nat) (stack : List (List PyStr))
      (fs : Fs) (root : Option PyStr),
      stack.length = prev.1 + 1 + (if prev.2.2 then 1 else 0) →
      (isSuccess (matGo benignFs i stack fs root rest).2 = true ↔
        List.Chain' (fun x y : Item => y.1 ≤ x.1 + if x.2.2 then 1 else 0)
          (prev :: rest)) := by
  intro rest
  induction rest with
  | nil =>
      intro prev i stack fs root hlen
      simp [matGo, isSuccess]
  | cons a rest ih =>
      intro prev i stack fs root hlen
      obtain ⟨d, nm, dir⟩ := a
      obtain ⟨dp, nmp, dirp⟩ := prev
      simp only at hlen
      simp only [matGo, benignFs, List.chain'_cons]
      by_cases hj : (stack.drop (stack.length - (d + 1))).length ≠ d + 1
      · have hlt : stack.length < d + 1 := by
          have hd := List.length_drop (stack.length - (d + 1)) stack
          omega
        have hstep : ¬ (d ≤ dp + (if dirp then 1 else 0)) := by
          cases dirp <;> simp at hlen ⊢ <;> omega
        simp only [if_pos hj, isSuccess]
        constructor
        · intro hfalse; exact absurd hfalse (by simp)
        · rintro ⟨hs, -⟩; exact absurd hs hstep
      · have hge : d + 1 ≤ stack.length := by
          have hd := List.length_drop (stack.length - (d + 1)) stack
          by_contra hc
          exact hj (by omega)
        have hstep : d ≤ dp + (if dirp then 1 else 0) := by
          cases dirp <;> simp at hlen ⊢ <;> omega
        have hlen' : (stack.drop (stack.length - (d + 1))).length = d + 1 := by
          rw [List.length_drop]; omega
        simp only [if_neg hj]
        cases dir with
        | false =>
            rw [if_neg Bool.false_ne_true]
            rw [ih (d, nm, false) (i + 1)]
            · exact ⟨fun hc => ⟨hstep, hc⟩, fun hc => hc.2⟩
            · simpa using hlen'
        | true =>
            rw [if_pos rfl]
            rw [ih (d, nm, true) (i + 1)]
            · exact ⟨fun hc => ⟨hstep, hc⟩, fun hc => hc.2⟩
            · simpa using hlen'

/-- Claim C5: on a valid base directory with no filesystem faults, the
    materializer succeeds exactly when the first item is a depth-0 directory
    and every later item's depth is at most the previous item's depth plus
    one when the previous item is a directory (plus zero when it is a file)
    — the arithmetic characterization of "popping the ancestor stack to
    length depth + 1 leaves exactly depth + 1 entries"; otherwise it returns
    a structure error with success `false` and root name `None`. -/
theorem C5_materializer_structure_validation (d : Nat) (nm : PyStr) (b : Bool)
    (rest : List Item) :
    (isSuccess (matResult ((d, nm, b) :: rest)) = true ↔
      (d = 0 ∧ b = true ∧
        List.Chain' (fun x y : Item => y.1 ≤ x.1 + if x.2.2 then 1 else 0)
          ((d, nm, b) :: rest))) ∧
    (isSuccess (matResult ((d, nm, b) :: rest)) = false →
      ∃ msg, matResult ((d, nm, b) :: rest) = Except.ok (msg, false, none)) := by
  constructor
  · by_cases hd : d = 0
    · subst hd
      cases b with
      | false =>
          simp [matResult, createStructureFromParsedM, benignBase, isSuccess]
      | true =>
          have e : matResult ((0, nm, true) :: rest) =
              (matGo benignFs 0 [[]] fsInit none ((0, nm, true) :: rest)).2 := by
            simp [matResult, createStructureFromParsedM, benignBase]
          rw [e, matGo_spec ((0, nm, true) :: rest) (0, [], false) 0 [[]]
            fsInit none (by simp)]
          rw [List.chain'_cons]
          constructor
          · rintro ⟨-, hc⟩; exact ⟨rfl, rfl, hc⟩
          · rintro ⟨-, -, hc⟩; exact ⟨by simp, hc⟩
    · simp [matResult, createStructureFromParsedM, benignBase, hd, isSuccess]
  · intro hfail
    by_cases hd : d = 0
    · subst hd
      cases b with
      | false =>
          exact ⟨"Error processing structure: first item not a directory",
            by simp [matResult, createStructureFromParsedM, benignBase]⟩
      | true =>
          have e : matResult ((0, nm, true) :: rest) =
              (matGo benignFs 0 [[]] fsInit none ((0, nm, true) :: rest)).2 := by
            simp [matResult, createStructureFromParsedM, benignBase]
          rcases matGo_shape ((0, nm, true) :: rest) 0 [[]] fsInit none with
            ⟨m, r0, hok⟩ | ⟨m, hok⟩
          · rw [e, hok] at hfail; simp [isSuccess] at hfail
          · exact ⟨m, by rw [e, hok]⟩
    · exact ⟨"Error processing structure: first item not at level 0",
        by simp [matResult, createStructureFromParsedM, benignBase, hd]⟩

/-- Witness for C5: a two-item list satisfying both conditions succeeds. -/
theorem C5_witness :
    isSuccess (matResult [(0, pyStr "r", true), (1, pyStr "f", false)]) = true :=
  (C5_materializer_structure_validation 0 (pyStr "r") true
    [(1, pyStr "f", false)]).1.mpr
    ⟨rfl, rfl, by rw [List.chain'_cons]; exact ⟨by decide, List.chain'_singleton _⟩⟩

theorem dropWhile_head_not (p : Char → Bool) :
    ∀ (l : List Char) (a : Char), (l.dropWhile p).head? = some a → p a = false := by
  intro l
  induction l with
  | nil => intro a h; simp [List.dropWhile] at h
  | cons c t ih =>
      intro a h
      by_cases hc : p c = true
      · rw [List.dropWhile_cons, if_pos hc] at h; exact ih a h
      · rw [List.dropWhile_cons, if_neg hc] at h
        have : c = a := by simpa using h
        subst this
        simpa using hc

theorem dropWhile_eq_self_of_head (p : Char → Bool) (l : List Char)
    (h : ∀ a, l.head? = some a → p a = false) : l.dropWhile p = l := by
  cases l with
  | nil => rfl
  | cons c t =>
      rw [List.dropWhile_cons, if_neg]
      simp [h c rfl]

theorem dropWhile_idem (p : Char → Bool) (l : List Char) :
    (l.dropWhile p).dropWhile p = l.dropWhile p :=
  dropWhile_eq_self_of_head p _ (fun a ha => dropWhile_head_not p l a ha)

theorem dropWhile_suffix_decomp (p : Char → Bool) :
    ∀ l : List Char, ∃ t, l = t ++ l.dropWhile p := by
  intro l
  induction l with
  | nil => exact ⟨[], rfl⟩
  | cons c t ih =>
      by_cases hc : p c = true
      · obtain ⟨t', ht⟩ := ih
        refine ⟨c :: t', ?_⟩
        rw [List.dropWhile_cons, if_pos hc, List.cons_append, ← ht]
      · exact ⟨[], by rw [List.dropWhile_cons, if_neg hc]; rfl⟩

theorem stripEnd_decomp (p : Char → Bool) (l : List Char) :
    ∃ t, l = stripEnd p l ++ t := by
  obtain ⟨t, ht⟩ := dropWhile_suffix_decomp p l.reverse
  refine ⟨t.reverse, ?_⟩
  conv_lhs => rw [← List.reverse_reverse l, ht]
  rw [List.reverse_append]
  simp [stripEnd]

theorem stripEnd_idem (p : Char → Bool) (l : List Char) :
    stripEnd p (stripEnd p l) = stripEnd p l := by
  show ((stripEnd p l).reverse.dropWhile p).reverse = stripEnd p l
  show (((l.reverse.dropWhile p).reverse).reverse.dropWhile p).reverse = _
  rw [List.reverse_reverse, dropWhile_idem]
  rfl

theorem pyStripChars_head_not (p : Char → Bool) (l : List Char) (a : Char)
    (h : (pyStripChars p l).head? = some a) : p a = false := by
  obtain ⟨t, ht⟩ := stripEnd_decomp p (l.dropWhile p)
  cases hs : pyStripChars p l with
  | nil => rw [hs] at h; simp at h
  | cons b s' =>
      rw [hs] at h
      have hba : b = a := by simpa using h
      subst hba
      have hu : (l.dropWhile p).head? = some b := by
        have : l.dropWhile p = (b :: s') ++ t := by
          rw [← hs]; exact ht
        rw [this]; rfl
      exact dropWhile_head_not p l b hu

theorem pyStripChars_idem (p : Char → Bool) (l : List Char) :
    pyStripChars p (pyStripChars p l) = pyStripChars p l := by
  have h1 : (pyStripChars p l).dropWhile p = pyStripChars p l :=
    dropWhile_eq_self_of_head p _ (fun a ha => pyStripChars_head_not p l a ha)
  show stripEnd p ((pyStripChars p l).dropWhile p) = pyStripChars p l
  rw [h1]
  show stripEnd p (stripEnd p (l.dropWhile p)) = pyStripChars p l
  rw [stripEnd_idem]
  rfl

theorem mem_pyStripChars (p : Char → Bool) (l : List Char) (c : Char)
    (h : c ∈ pyStripChars p l) : c ∈ l := by
  obtain ⟨t2, ht2⟩ := stripEnd_decomp p (l.dropWhile p)
  obtain ⟨t1, ht1⟩ := dropWhile_suffix_decomp p l
  have hmu : c ∈ l.dropWhile p := by
    rw [ht2]; exact List.mem_append_left _ h
  rw [ht1]
  exact List.mem_append_right _ hmu

theorem mem_replaceIllegal_not (l : List Char) (c : Char)
    (h : c ∈ replaceIllegal l) : illegalFsChar c = false := by
  simp only [replaceIllegal, List.mem_map] at h
  obtain ⟨c', -, rfl⟩ := h
  by_cases hc : illegalFsChar c' = true
  · simp [hc]; rfl
  · simp only [if_neg hc]
    simpa using hc

theorem map_id_of_fixed (f : Char → Char) :
    ∀ l : List Char, (∀ c ∈ l, f c = c) → l.map f = l := by
  intro l
  induction l with
  | nil => intro _; rfl
  | cons c t ih =>
      intro h
      rw [List.map_cons, h c (by simp), ih (fun a ha => h a (by simp [ha]))]

/-- Claim C9: the materializer's name sanitization (replace the characters
    `< > : " / \ | ? *` with underscore, then strip leading and trailing dots
    and spaces) is idempotent. -/
theorem C9_sanitize_idempotent (x : PyStr) :
    sanitizeName (sanitizeName x) = sanitizeName x := by
  have hfix : replaceIllegal (sanitizeName x) = sanitizeName x := by
    apply map_id_of_fixed
    intro c hc
    have hnot : illegalFsChar c = false :=
      mem_replaceIllegal_not x c
        (mem_pyStripChars dotSpace (replaceIllegal x) c hc)
    simp [hnot]
  show pyStripChars dotSpace (replaceIllegal (sanitizeName x)) = sanitizeName x
  rw [hfix]
  exact pyStripChars_idem dotSpace (replaceIllegal x)

theorem dropWhile_eq_nil_of_all (p : Char → Bool) :
    ∀ l : List Char, l.all p = true → l.dropWhile p = [] := by
  intro l
  induction l with
  | nil => intro _; rfl
  | cons c t ih =>
      intro h
      rw [List.all_cons, Bool.and_eq_true] at h
      rw [List.dropWhile_cons, if_pos h.1]
      exact ih h.2

theorem pyStrip_nil_of_all_space (l : PyStr) (h : l.all isPySpace = true) :
    pyStrip l = [] := by
  unfold pyStrip
  rw [dropWhile_eq_nil_of_all isPySpace l h]
  rfl

theorem head_space_of_pos (l : PyStr) (h : 0 < countLeadingSpaces l) :
    l.head? = some ' ' := by
  cases l with
  | nil => simp [countLeadingSpaces] at h
  | cons c t =>
      by_cases hc : c = ' '
      · rw [hc]; rfl
      · exfalso
        have : (c == ' ') = false := by simp [hc]
        simp [countLeadingSpaces, List.takeWhile_cons, this] at h

theorem mem_sampled_strip_ne (map_text : PyStr) (l : PyStr)
    (h : l ∈ sampledLines map_text) : (!(pyStrip l).isEmpty) = true := by
  unfold sampledLines at h
  have h2 := List.mem_of_mem_take h
  exact (List.mem_filter.mp h2).2

/-- Claim C8: when no sampled line matches a tree-connector start and none
    begins with a tab, `_detect_format` classifies the text exactly by the
    spec's space rule: Generic if there are no positive leading-space counts,
    Spaces (4) if all are divisible by 4, else Spaces (2) if all are
    divisible by 2, else Generic. -/
theorem C8_space_rule (map_text : PyStr)
    (htree : ∀ l ∈ sampledLines map_text, treeStartMatch l = false)
    (htab : ∀ l ∈ sampledLines map_text, l.head? ≠ some '\t') :
    detectFormat map_text = specSpaceClassification map_text := by
  have hanyt : (sampledLines map_text).any treeStartMatch = false := by
    rw [List.any_eq_false]
    intro l hl; simp [htree l hl]
  have hanytab : ((sampledLines map_text).filter
      (fun l => !l.isEmpty && !pyIsSpace l)).any
        (fun l => l.head? == some '\t') = false := by
    rw [List.any_eq_false]
    intro l hl
    have hm : l ∈ sampledLines map_text := (List.mem_filter.mp hl).1
    simp [htab l hm]
  by_cases hemp : (sampledLines map_text).isEmpty = true
  · have he : sampledLines map_text = [] := by simpa using hemp
    simp [detectFormat, specSpaceClassification, he]
  · simp only [detectFormat, specSpaceClassification]
    rw [if_neg hemp, hanyt, if_neg Bool.false_ne_true, hanytab,
      if_neg Bool.false_ne_true]
    -- the space-rule comparison
    have hmem : ∀ c : Nat,
        c ∈ (((((sampledLines map_text).filter
            (fun l => !l.isEmpty && !pyIsSpace l && (l.head? == some ' '))).map
            countLeadingSpaces).filter (fun sp => 0 < sp)).dedup).insertionSort
            (· ≤ ·) ↔
        c ∈ ((((sampledLines map_text).map countLeadingSpaces).filter
            (fun c => 0 < c)).dedup) := by
      intro c
      rw [(List.perm_insertionSort (· ≤ ·) _).mem_iff]
      rw [List.mem_dedup, List.mem_dedup, List.mem_filter, List.mem_filter]
      simp only [List.mem_map, decide_eq_true_eq]
      constructor
      · rintro ⟨⟨l, hlA, rfl⟩, hpos⟩
        exact ⟨⟨l, (List.mem_filter.mp hlA).1, rfl⟩, hpos⟩
      · rintro ⟨⟨l, hl, rfl⟩, hpos⟩
        refine ⟨⟨l, ?_, rfl⟩, hpos⟩
        rw [List.mem_filter]
        refine ⟨hl, ?_⟩
        have hhead : l.head? = some ' ' := head_space_of_pos l hpos
        have hne : l ≠ [] := by
          intro he; rw [he] at hhead; simp at hhead
        have hnsp : pyIsSpace l = false := by
          cases hx : pyIsSpace l with
          | false => rfl
          | true =>
              exfalso
              have hall : l.all isPySpace = true := by
                unfold pyIsSpace at hx
                simp only [Bool.and_eq_true] at hx
                exact hx.2
              have := mem_sampled_strip_ne map_text l hl
              rw [pyStrip_nil_of_all_space l hall] at this
              simp at this
        simp [hne, hnsp, hhead]
    have hnil :
        ((((((sampledLines map_text).filter
          (fun l => !l.isEmpty && !pyIsSpace l && (l.head? == some ' '))).map
          countLeadingSpaces).filter (fun sp => 0 < sp)).dedup).insertionSort
          (· ≤ ·) = []) ↔
        (((((sampledLines map_text).map countLeadingSpaces).filter
          (fun c => 0 < c)).dedup) = []) := by
      simp only [List.eq_nil_iff_forall_not_mem]
      constructor <;> intro h c hc
      · exact h c ((hmem c).mpr hc)
      · exact h c ((hmem c).mp hc)
    by_cases hsp : ((((sampledLines map_text).map countLeadingSpaces).filter
        (fun c => 0 < c)).dedup) = []
    · rw [hnil.mpr hsp, hsp]
    · have hc1 : ((((((sampledLines map_text).filter
          (fun l => !l.isEmpty && !pyIsSpace l && (l.head? == some ' '))).map
          countLeadingSpaces).filter (fun sp => 0 < sp)).dedup).insertionSort
          (· ≤ ·)) ≠ [] := fun he => hsp (hnil.mp he)
      have e1 : ((((((sampledLines map_text).filter
          (fun l => !l.isEmpty && !pyIsSpace l && (l.head? == some ' '))).map
          countLeadingSpaces).filter (fun sp => 0 < sp)).dedup).insertionSort
          (· ≤ ·)).isEmpty = false := by
        cases hx : ((((((sampledLines map_text).filter
            (fun l => !l.isEmpty && !pyIsSpace l && (l.head? == some ' '))).map
            countLeadingSpaces).filter (fun sp => 0 < sp)).dedup).insertionSort
            (· ≤ ·)) with
        | nil => exact absurd hx hc1
        | cons a t => rfl
      have e2 : (((((sampledLines map_text).map countLeadingSpaces).filter
          (fun c => 0 < c)).dedup)).isEmpty = false := by
        cases hx : ((((sampledLines map_text).map countLeadingSpaces).filter
            (fun c => 0 < c)).dedup) with
        | nil => exact absurd hx hsp
        | cons a t => rfl
      have hall : ∀ k : Nat,
          (((((((sampledLines map_text).filter
            (fun l => !l.isEmpty && !pyIsSpace l && (l.head? == some ' '))).map
            countLeadingSpaces).filter (fun sp => 0 < sp)).dedup).insertionSort
            (· ≤ ·)).all (fun s => s % k == 0)) =
          (((((sampledLines map_text).map countLeadingSpaces).filter
            (fun c => 0 < c)).dedup).all (fun s => s % k == 0)) := by
        intro k
        cases hx : (((((sampledLines map_text).map countLeadingSpaces).filter
            (fun c => 0 < c)).dedup).all (fun s => s % k == 0)) with
        | true =>
            rw [List.all_eq_true] at hx ⊢
            exact fun c hc => hx c ((hmem c).mp hc)
        | false =>
            cases hy : ((((((((sampledLines map_text).filter
                (fun l => !l.isEmpty && !pyIsSpace l &&
                  (l.head? == some ' '))).map
                countLeadingSpaces).filter (fun sp => 0 < sp)).dedup)).insertionSort
                (· ≤ ·)).all (fun s => s % k == 0)) with
            | false => rfl
            | true =>
                exfalso
                rw [List.all_eq_true] at hy
                have : (((((sampledLines map_text).map
                    countLeadingSpaces).filter (fun c => 0 < c)).dedup).all
                    (fun s => s % k == 0)) = true :=
                  List.all_eq_true.mpr (fun c hc => hy c ((hmem c).mpr hc))
                rw [hx] at this
                exact Bool.false_ne_true this
      rw [e1, e2, hall 4, hall 2]

/-- Witness for C8 on a concrete two-space-indented text with no tree or tab
    lines. -/
theorem C8_witness :
    (∀ l ∈ sampledLines (pyStr "proj/\n  a\n    b"), treeStartMatch l = false) ∧
    (∀ l ∈ sampledLines (pyStr "proj/\n  a\n    b"), l.head? ≠ some '\t') ∧
    detectFormat (pyStr "proj/\n  a\n    b") =
      specSpaceClassification (pyStr "proj/\n  a\n    b") := by
  refine ⟨by decide, by decide, ?_⟩
  exact C8_space_rule (pyStr "proj/\n  a\n    b") (by decide) (by decide)

end DirSnap
